import Mathlib

set_option maxHeartbeats 1000000

namespace RaptorSpec

/-! Shallow embedding of the raptor RDF library core covered by the
specification: the prefixed-name checker and qname constructor of
raptor_qname.c, the parser factory registry of raptor_parse.c, and the
GRDDL engine of raptor_grddl.c (relay filter, value-list processing,
recursive namespace/profile traversal with the visited-URI set, and the
transform drain loop).  C strings are modelled as Lean strings or lists
of characters, raptor sequences as Lean lists (push appends at the tail,
unshift removes the head), and raptor URIs as strings compared by
equality, matching raptor_uri_equals. -/

/-! Section 1: prefixed-name check, raptor_qname.c lines 690-868.
The input is modelled as the list of Unicode codepoints decoded from the
UTF-8 bytes, since the decoding helper raptor_unicode_utf8_string_get_char
lives in raptor_unicode.c which is not among the sources. -/

/-- Bit flag RAPTOR_PREFIXED_NAME_CHECK_ALLOW_09_FIRST (raptor_qname.c line 691). -/
def ALLOW_09_FIRST : Nat := 1

/-- Bit flag RAPTOR_PREFIXED_NAME_CHECK_ALLOW_MINUS_REST (line 692). -/
def ALLOW_MINUS_REST : Nat := 2

/-- Bit flag RAPTOR_PREFIXED_NAME_CHECK_ALLOW_DOT_REST (line 693). -/
def ALLOW_DOT_REST : Nat := 4

/-- Bit flag RAPTOR_PREFIXED_NAME_CHECK_ALLOW_UL_FIRST (line 694). -/
def ALLOW_UL_FIRST : Nat := 8

/-- Bit flag RAPTOR_PREFIXED_NAME_CHECK_ALLOW_COLON (line 695). -/
def ALLOW_COLON : Nat := 16

/-- Bit flag RAPTOR_PREFIXED_NAME_CHECK_ALLOW_HEX (line 696). -/
def ALLOW_HEX : Nat := 32

/-- Bit flag RAPTOR_PREFIXED_NAME_CHECK_ALLOW_EXTRA_UNICODE (line 697). -/
def ALLOW_EXTRA_UNICODE : Nat := 64

/-- Bit flag RAPTOR_PREFIXED_NAME_CHECK_ALLOW_BS_ESCAPE (line 698). -/
def ALLOW_BS_ESCAPE : Nat := 128

/-- Test whether a codepoint lies in an inclusive range. -/
def between (lo c hi : Nat) : Bool := decide (lo ≤ c ∧ c ≤ hi)

/-- Modelled from the spec: raptor_unicode_is_xml11_namestartchar
(raptor_unicode.c is not among the sources); the XML 1.1 NameStartChar
production named in section 4.3 of the spec.  The characters handled by
earlier branches of the checker (colon, percent, backslash, underscore at
position 0) never reach this test. -/
def isXml11NameStartChar (c : Nat) : Bool :=
  c == 58 || between 65 c 90 || c == 95 || between 97 c 122 ||
  between 0xC0 c 0xD6 || between 0xD8 c 0xF6 || between 0xF8 c 0x2FF ||
  between 0x370 c 0x37D || between 0x37F c 0x1FFF || between 0x200C c 0x200D ||
  between 0x2070 c 0x218F || between 0x2C00 c 0x2FEF || between 0x3001 c 0xD7FF ||
  between 0xF900 c 0xFDCF || between 0xFDF0 c 0xFFFD || between 0x10000 c 0xEFFFF

/-- Modelled from the spec: raptor_unicode_is_xml11_namechar, the XML 1.1
NameChar production (NameStartChar plus minus, dot, digits, U+00B7,
U+0300-U+036F, U+203F-U+2040). -/
def isXml11NameChar (c : Nat) : Bool :=
  isXml11NameStartChar c || c == 45 || c == 46 || between 48 c 57 ||
  c == 0xB7 || between 0x300 c 0x36F || between 0x203F c 0x2040

/-- Modelled from the spec: raptor_unicode_max_codepoint, the largest legal
Unicode codepoint U+10FFFF (raptor_unicode.c is not among the sources). -/
def raptor_unicode_max_codepoint : Nat := 0x10FFFF

/-- Escape alphabet permitted after a backslash, raptor_qname.c lines
776-782: one of the characters in the set underscore tilde dot minus
exclamation-mark dollar ampersand apostrophe parentheses star plus comma
semicolon equals slash question-mark hash at-sign percent. -/
def isEscapeChar (c : Nat) : Bool :=
  c == 95 || c == 126 || c == 46 || c == 45 || c == 33 || c == 36 ||
  c == 38 || c == 39 || c == 40 || c == 41 || c == 42 || c == 43 ||
  c == 44 || c == 59 || c == 61 || c == 47 || c == 63 || c == 35 ||
  c == 64 || c == 37

/-- One iteration of the character loop of raptor_prefixed_name_check
(raptor_qname.c lines 764-853) on the decoded codepoint c at position pos
with the escaping flag: none means goto done (rc stays 0), some gives the
escaping flag for the next iteration (every continue clears it except the
backslash itself, which sets it regardless of the ALLOW_BS_ESCAPE bit,
line 786). -/
def nameCheckStep (bits pos : Nat) (escaping : Bool) (c : Nat) : Option Bool :=
  if raptor_unicode_max_codepoint < c then none
  else if escaping then
    if isEscapeChar c then some false else none
  else if c = 92 then some true
  else if c = 58 then
    if bits &&& ALLOW_COLON ≠ 0 then some false else none
  else if c = 37 then
    if bits &&& ALLOW_HEX ≠ 0 then some false else none
  else if pos = 0 then
    if 48 ≤ c ∧ c ≤ 57 then
      if bits &&& ALLOW_09_FIRST ≠ 0 then some false else none
    else if c = 95 then
      if bits &&& ALLOW_UL_FIRST ≠ 0 then some false else none
    else if isXml11NameStartChar c then some false
    else none
  else
    if c = 0xB7 ∨ (0x300 ≤ c ∧ c ≤ 0x36F) ∨ (0x203F ≤ c ∧ c ≤ 0x2040) then
      if bits &&& ALLOW_EXTRA_UNICODE ≠ 0 then some false else none
    else if c = 46 then
      if bits &&& ALLOW_DOT_REST ≠ 0 then some false else none
    else if c = 45 then
      if bits &&& ALLOW_MINUS_REST ≠ 0 then some false else none
    else if isXml11NameChar c then some false
    else none

/-- Main character loop of raptor_prefixed_name_check (raptor_qname.c lines
760-863) over the decoded codepoints.  The arguments mirror the loop state:
remaining codepoints, the position counter pos, the escaping flag, and the
last decoded codepoint unichar (initially 0).  When the list is exhausted
the final-character test of lines 856-860 runs on the last codepoint;
note that a pending escaping flag is not examined there. -/
def nameCheckLoop (bits : Nat) : List Nat → Nat → Bool → Nat → Int
  | [], _, _, last => if last = 46 then 0 else 1
  | c :: rest, pos, escaping, _ =>
    match nameCheckStep bits pos escaping c with
    | none => 0
    | some esc2 => nameCheckLoop bits rest (pos + 1) esc2 c

/-- Profile dispatch of raptor_prefixed_name_check, lines 724-747: check
types 0-3 (variable, qname prefix part, qname local part, blank node id)
select a bit set, anything else is an error. -/
def checkBitsOf (check_type : Nat) : Option Nat :=
  if check_type = 0 then
    some (ALLOW_UL_FIRST ||| ALLOW_09_FIRST ||| ALLOW_EXTRA_UNICODE)
  else if check_type = 1 then
    some (ALLOW_DOT_REST ||| ALLOW_MINUS_REST ||| ALLOW_HEX ||| ALLOW_EXTRA_UNICODE)
  else if check_type = 2 then
    some (ALLOW_09_FIRST ||| ALLOW_DOT_REST ||| ALLOW_MINUS_REST ||| ALLOW_HEX |||
          ALLOW_COLON ||| ALLOW_EXTRA_UNICODE ||| ALLOW_BS_ESCAPE)
  else if check_type = 3 then
    some (ALLOW_09_FIRST ||| ALLOW_DOT_REST ||| ALLOW_MINUS_REST ||| ALLOW_EXTRA_UNICODE)
  else none

/-- raptor_prefixed_name_check (raptor_qname.c lines 712-868) on the decoded
codepoint sequence: unknown check type and empty input return -1; otherwise
the character loop runs with pos = 0, escaping clear and unichar = 0. -/
def raptor_prefixed_name_check (cps : List Nat) (check_type : Nat) : Int :=
  match checkBitsOf check_type with
  | none => -1
  | some bits => if cps.length = 0 then -1 else nameCheckLoop bits cps 0 false 0

/-! Section 2: qname construction, raptor_qname.c lines 94-214.
Names are lists of characters; the namespace stack is a list with the most
recently declared namespace first. -/

/-- Namespace entry: prefix (none is the default namespace), URI, and
declaration depth, following the data model of the spec. -/
structure RNamespace where
  pfx : Option (List Char)
  uri : Option (List Char)
  depth : Nat
deriving Repr, DecidableEq

/-- Modelled from the spec: raptor_namespaces_find_namespace
(raptor_namespace.c is not among the sources); find by prefix, most recent
declaration wins. -/
def findNamespace (nstack : List RNamespace) (p : List Char) : Option RNamespace :=
  nstack.find? (fun ns => decide (ns.pfx = some p))

/-- Modelled from the spec: raptor_namespaces_get_default_namespace; the
most recent namespace declared without a prefix. -/
def getDefaultNamespace (nstack : List RNamespace) : Option RNamespace :=
  nstack.find? (fun ns => decide (ns.pfx = none))

/-- Modelled from the spec: raptor_new_uri_from_uri_local_name concatenates
the namespace URI and the local name (raptor_uri.c is not among the
sources). -/
def uriFromUriLocalName (u l : List Char) : List Char := u ++ l

/-- Qname record: owned local name, optional attribute value, optional
namespace, optional expanded URI. -/
structure RQname where
  localName : List Char
  value : Option (List Char)
  nspace : Option RNamespace
  uri : Option (List Char)
deriving Repr, DecidableEq

/-- Split a name at its first colon, mirroring the scan loop of
raptor_new_qname lines 131-134: none when the name has no colon, otherwise
the part before and the part after the first colon. -/
def splitAtColon : List Char → Option (List Char × List Char)
  | [] => none
  | c :: rest =>
    if c = ':' then some ([], rest)
    else
      match splitAtColon rest with
      | none => none
      | some (a, b) => some (c :: a, b)

/-- Expanded-URI computation of raptor_new_qname lines 201-210: when a
namespace is present and the local name is non-empty, the qname URI is the
namespace URI concatenated with the local name (and stays absent when the
namespace has no URI). -/
def mkQnameUri (q : RQname) : RQname :=
  match q.nspace with
  | none => q
  | some ns =>
    if q.localName.length ≠ 0 then
      match ns.uri with
      | some u => { q with uri := some (uriFromUriLocalName u q.localName) }
      | none => { q with uri := none }
    else q

/-- raptor_new_qname (raptor_qname.c lines 94-214).  A name without a colon
keeps the whole name as local part and, for elements only (no value), picks
up the default namespace; a name with a colon looks its prefix up in the
stack (an unresolved prefix logs an error and leaves the namespace absent,
the qname is still produced).  Finally the expanded URI is computed. -/
def raptor_new_qname (nstack : List RNamespace) (name : List Char)
    (value : Option (List Char)) : RQname :=
  match splitAtColon name with
  | none =>
    mkQnameUri
      { localName := name, value := value,
        nspace := if value = none then getDefaultNamespace nstack else none,
        uri := none }
  | some (p, l) =>
    mkQnameUri
      { localName := l, value := value, nspace := findNamespace nstack p,
        uri := none }

/-! Section 3: parser factory registry, raptor_parse.c. -/

/-- Parser factory record (raptor_parse.c): registration name, label,
optional MIME type, optional URI string, optional alias.  recogniseScore
stands for the result of the factory recognise_syntax operation on the
inputs of the current guess call, none when the factory has no such
operation (the C initialises the score to -1 in that case). -/
structure ParserFactory where
  name : String
  label : String
  mimeType : Option String
  uriString : Option String
  aliasName : Option String
  recogniseScore : Option Int
deriving Repr, DecidableEq

/-- raptor_parser_register_factory (raptor_parse.c lines 117-192): a
duplicate name is fatal (modelled as none); otherwise the new factory is
prepended to the global list (lines 188-189). -/
def raptor_parser_register_factory (parsers : List ParserFactory)
    (f : ParserFactory) : Option (List ParserFactory) :=
  if parsers.any (fun h => decide (h.name = f.name)) then none
  else some (f :: parsers)

/-- Register a batch of factories in the given order, propagating the fatal
duplicate case. -/
def registerAll (parsers : List ParserFactory) :
    List ParserFactory → Option (List ParserFactory)
  | [] => some parsers
  | f :: rest =>
    match raptor_parser_register_factory parsers f with
    | none => none
    | some ps => registerAll ps rest

/-- raptor_syntaxes_enumerate (raptor_parse.c lines 265-292): walk the list
from the head and report the factory at the given index, failure when the
counter is out of range. -/
def raptor_syntaxes_enumerate : List ParserFactory → Nat → Option ParserFactory
  | [], _ => none
  | f :: _, 0 => some f
  | _ :: rest, n + 1 => raptor_syntaxes_enumerate rest n

/-- raptor_get_parser_factory (raptor_parse.c lines 224-250): a null name
returns the head of the list; otherwise the first factory whose name or
alias matches. -/
def raptor_get_parser_factory (parsers : List ParserFactory)
    (name : Option String) : Option ParserFactory :=
  match name with
  | none => parsers.head?
  | some n => parsers.find? (fun f => decide (f.name = n) || decide (f.aliasName = some n))

/-- Exact MIME-type comparison of raptor_guess_parser_name lines 1570-1573:
both the requested and the declared MIME type must be present and equal. -/
def mimeExactMatch (mime : Option String) (f : ParserFactory) : Bool :=
  match mime, f.mimeType with
  | some m, some fm => decide (m = fm)
  | _, _ => false

/-- Exact URI comparison of raptor_guess_parser_name lines 1575-1579. -/
def uriExactMatch (uri : Option String) (f : ParserFactory) : Bool :=
  match uri, f.uriString with
  | some u, some fu => decide (u = fu)
  | _, _ => false

/-- Score clamp of line 1590: a recorded score is min(score, 10). -/
def clampScore (s : Int) : Int := if s < 10 then s else 10

/-- Raw score of a factory in the scan loop: -1 when the factory has no
recognise_syntax operation, its result otherwise (lines 1568, 1581-1584). -/
def factoryScore : Option Int → Int := fun r =>
  match r with
  | none => -1
  | some s => s

/-- Clamped recorded score of one factory. -/
def recordedScore (f : ParserFactory) : Int :=
  clampScore (factoryScore f.recogniseScore)

/-- Maximum of the recorded scores, none for an empty score list. -/
def maxScoreOf : List (Int × ParserFactory) → Option Int
  | [] => none
  | (s, _) :: rest =>
    match maxScoreOf rest with
    | none => some s
    | some m => some (max s m)

/-- Selection step of raptor_guess_parser_name lines 1596-1601: the C sorts
the recorded scores descending with an unstable qsort and takes entry 0
when its score is non-negative; we model the sorted entry 0 as the first
entry attaining the maximal score (any maximal entry is a possible qsort
outcome).  An empty score list means no factory was scanned; the C would
read uninitialised memory there, we return none. -/
def pickTopScore (scores : List (Int × ParserFactory)) : Option ParserFactory :=
  match maxScoreOf scores with
  | none => none
  | some m =>
    if 0 ≤ m then (scores.find? (fun sf => decide (sf.1 = m))).map Prod.snd
    else none

/-- Scan loop of raptor_guess_parser_name lines 1567-1601: for each factory
in list order, an exact MIME match returns its name at once, else an exact
URI match returns its name at once, else its clamped score is recorded;
when the list is exhausted the best recorded score decides. -/
def guessScan (mime uri : Option String) :
    List ParserFactory → List (Int × ParserFactory) → Option String
  | [], scores => (pickTopScore scores).map (fun f => f.name)
  | f :: rest, scores =>
    if mimeExactMatch mime f then some f.name
    else if uriExactMatch uri f then some f.name
    else guessScan mime uri rest (scores ++ [(recordedScore f, f)])

/-- raptor_guess_parser_name (raptor_parse.c lines 1539-1607) restricted to
its registry scan; the suffix extraction only feeds recognise_syntax, which
is abstracted by recogniseScore. -/
def raptor_guess_parser_name (parsers : List ParserFactory)
    (uri : Option String) (mime : Option String) : Option String :=
  guessScan mime uri parsers []

/-- Recorded-score list for a registry slice, used to state what the scan
accumulates. -/
def scoredList (parsers : List ParserFactory) : List (Int × ParserFactory) :=
  parsers.map (fun f => (recordedScore f, f))

/-! Section 4: GRDDL well-known URIs and the relay filter,
raptor_grddl.c lines 164-165 and 329-389. -/

/-- URI data-view#namespaceTransformation (raptor_grddl.c line 164). -/
def dataViewNamespaceTransformationUri : String :=
  "http://www.w3.org/2003/g/data-view#namespaceTransformation"

/-- URI data-view#profileTransformation (raptor_grddl.c line 165). -/
def dataViewProfileTransformationUri : String :=
  "http://www.w3.org/2003/g/data-view#profileTransformation"

/-- Data-view profile sentinel URI named by the spec. -/
def dataViewUri : String := "http://www.w3.org/2003/g/data-view"

/-- Comparison string of raptor_grddl_run_xpath_match line 828: the
sentinel with a trailing apostrophe (codepoint 39) exactly as the string
literal in the source reads. -/
def dataViewUriTypo : String := dataViewUri ++ (Char.ofNat 39).toString

/-- Raptor identifier types relevant to the relay filter. -/
inductive RaptorIdentifierType where
  | resource
  | anonymous
  | literal
deriving Repr, DecidableEq

/-- Triple as delivered to a statement handler; subject, predicate and
object carry their identifier type, resource terms are URI strings. -/
structure RStatement where
  subject : String
  subjectType : RaptorIdentifierType
  predicate : String
  predicateType : RaptorIdentifierType
  object : String
  objectType : RaptorIdentifierType
deriving Repr, DecidableEq

/-- Profile-matching loop of raptor_grddl_relay_triples lines 356-381:
iterate the profile-URI list with index i and the running predicate_uri,
which starts as namespaceTransformation and is switched to
profileTransformation when i reaches 1; null entries are skipped; a
subject/predicate match pushes a copy of the object URI.  Returns the
pushed URIs in push order. -/
def relayMatchLoop (st : RStatement) : Nat → String → List (Option String) → List String
  | _, _, [] => []
  | i, predUri, p :: rest =>
    let predUri2 := if i = 1 then dataViewProfileTransformationUri else predUri
    match p with
    | none => relayMatchLoop st (i + 1) predUri2 rest
    | some profileUri =>
      if st.subject = profileUri ∧ st.predicate = predUri2 then
        st.object :: relayMatchLoop st (i + 1) predUri2 rest
      else relayMatchLoop st (i + 1) predUri2 rest

/-- Transform URIs that one delivered statement pushes onto the transform
queue (raptor_grddl_relay_triples lines 337-383): only triples whose
subject, predicate and object are all resources are mined. -/
def raptor_grddl_relay_pushes (profiles : List (Option String))
    (st : RStatement) : List String :=
  if st.subjectType = RaptorIdentifierType.resource ∧
     st.predicateType = RaptorIdentifierType.resource ∧
     st.objectType = RaptorIdentifierType.resource then
    relayMatchLoop st 0 dataViewNamespaceTransformationUri profiles
  else []

/-- One call of raptor_grddl_relay_triples (lines 329-389): the matches are
appended to the transform queue, and then the statement is forwarded to the
saved user handler with the saved user data when one is installed
(lines 385-388). -/
def raptor_grddl_relay_triples {α : Type} (ud : α) (savedHandler : Bool)
    (profiles : List (Option String)) (queue : List String)
    (out : List (α × RStatement)) (st : RStatement) :
    List String × List (α × RStatement) :=
  (queue ++ raptor_grddl_relay_pushes profiles st,
   if savedHandler then out ++ [(ud, st)] else out)

/-- Relay an ordered run of statements, threading the transform queue and
the forwarded output. -/
def relayAll {α : Type} (ud : α) (savedHandler : Bool)
    (profiles : List (Option String)) :
    List String → List (α × RStatement) → List RStatement →
    List String × List (α × RStatement)
  | queue, out, [] => (queue, out)
  | queue, out, st :: rest =>
    let qo := raptor_grddl_relay_triples ud savedHandler profiles queue out st
    relayAll ud savedHandler profiles qo.1 qo.2 rest

/-- Specification-side restatement for the relay indexing claim: entry 0 of
the profile list is matched with predicate namespaceTransformation, every
entry at index at least 1 with predicate profileTransformation, absent
entries are skipped, and every match contributes the object URI. -/
def relayMatchesSpec (st : RStatement) : Nat → List (Option String) → List String
  | _, [] => []
  | i, none :: rest => relayMatchesSpec st (i + 1) rest
  | i, some profileUri :: rest =>
    (if st.subject = profileUri ∧
        st.predicate = (if i = 0 then dataViewNamespaceTransformationUri
                        else dataViewProfileTransformationUri)
     then [st.object] else []) ++ relayMatchesSpec st (i + 1) rest

/-! Section 5: value-list processing of raptor_grddl_run_xpath_match,
raptor_grddl.c lines 805-835. -/

/-- MATCH_IS_VALUE_LIST flag (raptor_grddl.c line 246). -/
def MATCH_IS_VALUE_LIST : Nat := 1

/-- MATCH_IS_PROFILE flag (raptor_grddl.c line 247). -/
def MATCH_IS_PROFILE : Nat := 2

/-- Space tokenizer of lines 814-834: the buffer is cut at each single
space; a segment that is empty and followed by a space is skipped
(start == end), while the final segment is always processed, even when it
is empty.  The accumulator carries the current segment reversed. -/
def valueListTokensAux : List Char → List Char → List (List Char)
  | acc, [] => [acc.reverse]
  | acc, c :: rest =>
    if c = ' ' then
      (if acc = [] then [] else [acc.reverse]) ++ valueListTokensAux [] rest
    else valueListTokensAux (c :: acc) rest

/-- Tokens the value-list loop processes, in order. -/
def valueListTokens (value : List Char) : List (List Char) :=
  valueListTokensAux [] value

/-- Value-list branch of raptor_grddl_run_xpath_match (lines 805-835):
every token is resolved against the node base (resolve models
raptor_new_uri_relative_to_base, raptor_uri.c is not among the sources);
with the profile flag set, a resolved URI equal to the literal comparison
string of line 828 is dropped, every other URI is kept in order. -/
def grddlValueListUris (resolve : List Char → String) (flags : Nat)
    (value : List Char) : List String :=
  (valueListTokens value).filterMap (fun tok =>
    let uri := resolve tok
    if flags &&& MATCH_IS_PROFILE ≠ 0 ∧ uri = dataViewUriTypo then none
    else some uri)

/-! Section 6: visited-URI set and recursive GRDDL processing,
raptor_grddl.c lines 688-719 and 853-884.  The reachable web is abstracted
as a finite association list from a document URI to the list of namespace
and profile URIs its GRDDL discovery would recurse on, in discovery order;
a URI absent from the list stands for a failed fetch. -/

/-- raptor_grddl_seen_uri (lines 688-708): linear scan of the visited list
under URI equality. -/
def raptor_grddl_seen_uri (visited : List String) (uri : String) : Bool :=
  visited.any (fun vuri => decide (vuri = uri))

/-- raptor_grddl_done_uri (lines 711-719): push a copy at the tail only
when the URI has not been seen. -/
def raptor_grddl_done_uri (visited : List String) (uri : String) : List String :=
  if raptor_grddl_seen_uri visited uri then visited else visited ++ [uri]

/-- Fetch result for a URI in the abstract web. -/
def webLookup (web : List (String × List String)) (uri : String) :
    Option (List String) :=
  (web.find? (fun e => decide (e.1 = uri))).map (fun e => e.2)

/-- One level of recursive GRDDL processing of a list of discovered URIs.
For each URI in order (the return code of a child does not stop its
siblings, raptor_grddl_parse_chunk lines 1004-1012): when the URI was
already seen nothing happens (raptor_grddl_run_recursive line 861); when
the fetch fails the visited set is unchanged (the URI is only recorded by
the child terminal chunk, which never runs); otherwise the child engine
first records its base URI (done_uri at line 924) and then processes the
child document discoveries through the deeper level. -/
def runRecursiveListFuelAux (web : List (String × List String))
    (deeper : List String → List String → List String) :
    List String → List String → List String
  | visited, [] => visited
  | visited, u :: rest =>
    let visited2 :=
      if raptor_grddl_seen_uri visited u then visited
      else
        match webLookup web u with
        | none => visited
        | some uris => deeper (raptor_grddl_done_uri visited u) uris
    runRecursiveListFuelAux web deeper visited2 rest

/-- Recursive GRDDL processing of a list of discovered URIs, fuel-indexed:
one unit of fuel per nesting level.  With no fuel no child can be entered
and the visited set is returned unchanged, exactly what one level of the
walk does when every entry is gated away. -/
def runRecursiveListFuel (web : List (String × List String)) :
    Nat → List String → List String → List String
  | 0, visited, _ => visited
  | f + 1, visited, us =>
    runRecursiveListFuelAux web (runRecursiveListFuel web f) visited us

/-- raptor_grddl_run_recursive (lines 853-884) on the abstract web: return
0 at once when the URI is already in the shared visited set; return 1 on
fetch failure with the visited set unchanged; otherwise the child engine
records the URI and processes its discoveries, and 0 is returned. -/
def raptor_grddl_run_recursive (web : List (String × List String))
    (fuel : Nat) (visited : List String) (uri : String) :
    Int × List String :=
  if raptor_grddl_seen_uri visited uri then (0, visited)
  else
    match webLookup web uri with
    | none => (1, visited)
    | some uris =>
      (0, runRecursiveListFuel web fuel (raptor_grddl_done_uri visited uri) uris)

/-- Number of web documents not yet visited; the termination measure. -/
def unvisitedCount (web : List (String × List String))
    (visited : List String) : Nat :=
  ((web.map Prod.fst).filter (fun k => !(raptor_grddl_seen_uri visited k))).length

/-! Section 7: transform drain loop of raptor_grddl_parse_chunk,
raptor_grddl.c lines 1052-1061.  Applying one transform is abstracted by a
function giving its failure flag and the transform URIs its relayed triples
append to the tail of the queue; the loop body unshifts the front of the
queue, applies it, and breaks on the first failure, while the loop guard
compares the counter i with the current queue size. -/

/-- Drain loop: for(i=0; i < size(queue); i++) with uri = unshift(queue)
in the body; fuel only bounds the iteration count (the concrete C loop can
also fail to terminate only if transforms keep enqueuing).  Returns the
final queue and the transform URIs applied, in application order. -/
def drainLoop (app : String → Bool × List String) :
    Nat → Nat → List String → List String → List String × List String
  | 0, _, queue, applied => (queue, applied)
  | _ + 1, _, [], applied => ([], applied)
  | fuel + 1, i, u :: rest, applied =>
    if i < rest.length + 1 then
      let r := app u
      if r.1 then (rest ++ r.2, applied ++ [u])
      else drainLoop app fuel (i + 1) (rest ++ r.2) (applied ++ [u])
    else (u :: rest, applied)

/-- Transform application that always succeeds and discovers nothing. -/
def noopTransform : String → Bool × List String := fun _ => (false, [])

/-! Theorems.  Claim identifiers refer to the frozen claim list. -/

/-- Helper: the character loop only ever produces 0 or 1. -/
theorem nameCheckLoop_zero_or_one (bits : Nat) (l : List Nat) :
    ∀ (pos : Nat) (esc : Bool) (last : Nat),
      nameCheckLoop bits l pos esc last = 0 ∨ nameCheckLoop bits l pos esc last = 1 := by
  induction l with
  | nil =>
    intro pos esc last
    simp only [nameCheckLoop]
    split
    · exact Or.inl rfl
    · exact Or.inr rfl
  | cons c rest ih =>
    intro pos esc last
    simp only [nameCheckLoop]
    cases nameCheckStep bits pos esc c with
    | none => exact Or.inl rfl
    | some esc2 => exact ih _ _ _

/-- Helper: when the character loop accepts, the last codepoint examined
(the last list element, or the carried previous codepoint for an empty
remainder) is not a dot. -/
theorem nameCheckLoop_eq_one_last (bits : Nat) (l : List Nat) :
    ∀ (pos : Nat) (esc : Bool) (last : Nat),
      nameCheckLoop bits l pos esc last = 1 → l.getLastD last ≠ 46 := by
  induction l with
  | nil =>
    intro pos esc last h
    simp only [nameCheckLoop] at h
    split_ifs at h with hc
    · exact absurd h (by decide)
    · simpa [List.getLastD] using hc
  | cons c rest ih =>
    intro pos esc last h
    rw [List.getLastD_cons]
    cases hs : nameCheckStep bits pos esc c with
    | none =>
      simp only [nameCheckLoop, hs] at h
      exact absurd h (by decide)
    | some esc2 =>
      simp only [nameCheckLoop, hs] at h
      exact ih _ _ _ h

/-- Helper: every check type below 4 selects a bit set. -/
theorem checkBitsOf_lt_four (ct : Nat) (h : ct < 4) : checkBitsOf ct ≠ none := by
  interval_cases ct <;> simp [checkBitsOf]

/-- C7: raptor_prefixed_name_check returns a negative value for an unknown
check type or an empty name; it never returns 1 when the final codepoint of
the name is a dot; and for a known check type on a non-empty name it
returns 0 or 1. -/
theorem raptor_prefixed_name_check_contract (cps : List Nat) (ct : Nat) :
    (4 ≤ ct → raptor_prefixed_name_check cps ct < 0) ∧
    (cps = [] → raptor_prefixed_name_check cps ct < 0) ∧
    (cps.getLast? = some 46 → raptor_prefixed_name_check cps ct ≠ 1) ∧
    (ct < 4 → cps ≠ [] →
      raptor_prefixed_name_check cps ct = 0 ∨ raptor_prefixed_name_check cps ct = 1) := by
  refine ⟨?_, ?_, ?_, ?_⟩
  · intro h
    have hnone : checkBitsOf ct = none := by
      unfold checkBitsOf
      rw [if_neg, if_neg, if_neg, if_neg] <;> omega
    simp [raptor_prefixed_name_check, hnone]
  · intro h
    subst h
    cases hcb : checkBitsOf ct <;> simp [raptor_prefixed_name_check, hcb]
  · intro hlast
    cases hcb : checkBitsOf ct with
    | none => simp [raptor_prefixed_name_check, hcb]
    | some bits =>
      rcases List.eq_nil_or_concat cps with hnil | ⟨l2, a, rfl⟩
      · rw [hnil] at hlast
        exact absurd hlast (by simp)
      · have hlen : (l2.concat a).length ≠ 0 := by simp
        simp only [raptor_prefixed_name_check, hcb]
        rw [if_neg hlen]
        intro hone
        have hd := nameCheckLoop_eq_one_last bits (l2.concat a) 0 false 0 hone
        rw [List.getLastD_eq_getLast?, hlast] at hd
        exact hd rfl
  · intro hct hne
    have hlen : cps.length ≠ 0 := by simpa [List.length_eq_zero] using hne
    cases hcb : checkBitsOf ct with
    | none => exact absurd hcb (checkBitsOf_lt_four ct hct)
    | some bits =>
      simp only [raptor_prefixed_name_check, hcb]
      rw [if_neg hlen]
      exact nameCheckLoop_zero_or_one bits cps 0 false 0

/-- Witness for C7 at concrete inputs: unknown check type 7, the empty
name, the name "a." which ends in a dot, and the name "a" under the qname
local profile. -/
theorem raptor_prefixed_name_check_contract_witness :
    raptor_prefixed_name_check [97] 7 < 0 ∧
    raptor_prefixed_name_check ([] : List Nat) 2 < 0 ∧
    raptor_prefixed_name_check [97, 46] 2 ≠ 1 ∧
    (raptor_prefixed_name_check [97] 2 = 0 ∨ raptor_prefixed_name_check [97] 2 = 1) :=
  ⟨(raptor_prefixed_name_check_contract [97] 7).1 (by decide),
   (raptor_prefixed_name_check_contract [] 2).2.1 rfl,
   (raptor_prefixed_name_check_contract [97, 46] 2).2.2.1 (by decide),
   (raptor_prefixed_name_check_contract [97] 2).2.2.2 (by decide) (by decide)⟩

/-- C9: the name "a" followed by a single backslash, under the qname local
profile (check type 2), is accepted with 1 although the backslash starts an
escape that has no following character: the pending-escape state is not
examined after the character loop. -/
theorem check_accepts_trailing_backslash :
    raptor_prefixed_name_check [97, 92] 2 = 1 ∧
    ([97, 92] : List Nat).getLast? = some 92 := by decide

/-- Helper: splitting a name built from a colon-free part, a colon and a
remainder recovers the two parts. -/
theorem splitAtColon_append (p l : List Char) (hp : ¬ ':' ∈ p) :
    splitAtColon (p ++ ':' :: l) = some (p, l) := by
  induction p with
  | nil => simp [splitAtColon]
  | cons c p2 ih =>
    have hc : ¬ c = ':' := fun e => hp (by rw [e]; exact List.mem_cons_self _ _)
    have hp2 : ¬ ':' ∈ p2 := fun m => hp (List.mem_cons_of_mem c m)
    simp [splitAtColon, hc, ih hp2]

/-- Helper: the URI computation changes neither namespace nor local name. -/
theorem mkQnameUri_nspace_localName (q : RQname) :
    (mkQnameUri q).nspace = q.nspace ∧ (mkQnameUri q).localName = q.localName := by
  obtain ⟨ln, v, nsp, ur⟩ := q
  cases nsp with
  | none => exact ⟨rfl, rfl⟩
  | some ns =>
    simp only [mkQnameUri]
    split_ifs with h
    · cases hu : ns.uri with
      | none => simp [hu]
      | some u => simp [hu]
    · exact ⟨rfl, rfl⟩

/-- Helper: with a namespace carrying a URI and a non-empty local name, the
computed qname URI is the concatenation. -/
theorem mkQnameUri_uri (q : RQname) (ns : RNamespace) (u : List Char)
    (h1 : q.nspace = some ns) (h2 : ns.uri = some u) (h3 : q.localName ≠ []) :
    (mkQnameUri q).uri = some (u ++ q.localName) := by
  have hl : q.localName.length ≠ 0 := by simpa [List.length_eq_zero] using h3
  unfold mkQnameUri
  rw [h1]
  dsimp only
  rw [if_pos hl, h2]
  rfl

/-- C8: for a name with a declared prefix, raptor_new_qname attaches the
namespace found for that prefix and expands the URI to the namespace URI
concatenated with the local name; and in general any constructed qname
whose namespace carries a URI and whose local name is non-empty has the
concatenation as its expanded URI. -/
theorem raptor_new_qname_uri_concat :
    (∀ (nstack : List RNamespace) (p l : List Char) (value : Option (List Char))
        (ns : RNamespace) (u : List Char),
      (¬ ':' ∈ p) → l ≠ [] → findNamespace nstack p = some ns → ns.uri = some u →
      (raptor_new_qname nstack (p ++ ':' :: l) value).nspace = some ns ∧
      (raptor_new_qname nstack (p ++ ':' :: l) value).uri = some (u ++ l)) ∧
    (∀ (nstack : List RNamespace) (name : List Char) (value : Option (List Char))
        (ns : RNamespace) (u : List Char),
      (raptor_new_qname nstack name value).nspace = some ns → ns.uri = some u →
      (raptor_new_qname nstack name value).localName ≠ [] →
      (raptor_new_qname nstack name value).uri =
        some (u ++ (raptor_new_qname nstack name value).localName)) := by
  constructor
  · intro nstack p l value ns u hp hl hfind huri
    unfold raptor_new_qname
    rw [splitAtColon_append p l hp]
    dsimp only
    constructor
    · rw [(mkQnameUri_nspace_localName _).1]
      exact hfind
    · exact mkQnameUri_uri _ ns u hfind huri hl
  · intro nstack name value ns u hns huri hl
    unfold raptor_new_qname at hns hl ⊢
    cases hsplit : splitAtColon name with
    | none =>
      rw [hsplit] at hns hl
      dsimp only at hns hl ⊢
      rw [(mkQnameUri_nspace_localName _).2] at hl ⊢
      rw [(mkQnameUri_nspace_localName _).1] at hns
      exact mkQnameUri_uri _ ns u hns huri hl
    | some pl =>
      obtain ⟨p2, l2⟩ := pl
      rw [hsplit] at hns hl
      dsimp only at hns hl ⊢
      rw [(mkQnameUri_nspace_localName _).2] at hl ⊢
      rw [(mkQnameUri_nspace_localName _).1] at hns
      exact mkQnameUri_uri _ ns u hns huri hl

/-- Witness for C8 on a concrete stack declaring prefix foo with URI
http://ex/ and the name foo:bar. -/
theorem raptor_new_qname_uri_concat_witness :
    ((raptor_new_qname [⟨some "foo".toList, some "http://ex/".toList, 0⟩]
        ("foo".toList ++ ':' :: "bar".toList) none).nspace =
      some ⟨some "foo".toList, some "http://ex/".toList, 0⟩ ∧
     (raptor_new_qname [⟨some "foo".toList, some "http://ex/".toList, 0⟩]
        ("foo".toList ++ ':' :: "bar".toList) none).uri =
      some ("http://ex/".toList ++ "bar".toList)) ∧
    (raptor_new_qname [⟨some "foo".toList, some "http://ex/".toList, 0⟩]
        ("foo".toList ++ ':' :: "bar".toList) none).uri =
      some ("http://ex/".toList ++
        (raptor_new_qname [⟨some "foo".toList, some "http://ex/".toList, 0⟩]
          ("foo".toList ++ ':' :: "bar".toList) none).localName) :=
  ⟨raptor_new_qname_uri_concat.1 [⟨some "foo".toList, some "http://ex/".toList, 0⟩]
      "foo".toList "bar".toList none ⟨some "foo".toList, some "http://ex/".toList, 0⟩
      "http://ex/".toList (by decide) (by decide) (by decide) rfl,
   raptor_new_qname_uri_concat.2 [⟨some "foo".toList, some "http://ex/".toList, 0⟩]
      ("foo".toList ++ ':' :: "bar".toList) none
      ⟨some "foo".toList, some "http://ex/".toList, 0⟩ "http://ex/".toList
      (by decide) rfl (by decide)⟩

/-- Helper: enumeration walks the factory list by index. -/
theorem raptor_syntaxes_enumerate_eq_getElem (ps : List ParserFactory) :
    ∀ n, raptor_syntaxes_enumerate ps n = ps[n]? := by
  induction ps with
  | nil => intro n; cases n <;> simp [raptor_syntaxes_enumerate]
  | cons f rest ih =>
    intro n
    cases n with
    | zero => simp [raptor_syntaxes_enumerate]
    | succ m => simp [raptor_syntaxes_enumerate, ih m]

/-- Helper: registering a batch of factories with pairwise distinct names,
none of which collides with the accumulated registry, prepends them one by
one, producing the reverse of the batch in front of the registry. -/
theorem registerAll_reverse (fs : List ParserFactory) :
    ∀ acc : List ParserFactory,
      (fs.map ParserFactory.name).Nodup →
      (∀ f ∈ fs, ∀ h ∈ acc, h.name ≠ f.name) →
      registerAll acc fs = some (fs.reverse ++ acc) := by
  induction fs with
  | nil => intro acc _ _; simp [registerAll]
  | cons f rest ih =>
    intro acc hnodup hdisj
    have hnof : ¬ acc.any (fun h => decide (h.name = f.name)) = true := by
      simp only [List.any_eq_true, decide_eq_true_iff, not_exists]
      intro g
      simp only [not_and]
      intro hg
      exact hdisj f (List.mem_cons_self f rest) g hg
    have hnodup2 : (rest.map ParserFactory.name).Nodup := by
      rw [List.map_cons, List.nodup_cons] at hnodup
      exact hnodup.2
    have hfname : f.name ∉ rest.map ParserFactory.name := by
      rw [List.map_cons, List.nodup_cons] at hnodup
      exact hnodup.1
    have hdisj2 : ∀ g ∈ rest, ∀ h ∈ f :: acc, h.name ≠ g.name := by
      intro g hg h hh
      rcases List.mem_cons.mp hh with rfl | hh2
      · intro e
        exact hfname (e ▸ List.mem_map_of_mem ParserFactory.name hg)
      · exact hdisj g (List.mem_cons_of_mem f hg) h hh2
    simp only [registerAll, raptor_parser_register_factory]
    rw [if_neg hnof]
    dsimp only
    rw [ih (f :: acc) hnodup2 hdisj2]
    simp

/-- C10: registration prepends to the global factory list (a fresh name is
required, a duplicate is fatal), so enumeration index 0 and a lookup with a
null name both give the most recently registered factory; enumeration
presents the list in order, and a batch of registrations lands in reverse
registration order. -/
theorem registry_reverse_order :
    (∀ (ps : List ParserFactory) (f : ParserFactory),
      (∀ h ∈ ps, h.name ≠ f.name) →
      raptor_parser_register_factory ps f = some (f :: ps)) ∧
    (∀ (ps : List ParserFactory) (f : ParserFactory),
      raptor_syntaxes_enumerate (f :: ps) 0 = some f ∧
      raptor_get_parser_factory (f :: ps) none = some f) ∧
    (∀ (ps : List ParserFactory) (n : Nat),
      raptor_syntaxes_enumerate ps n = ps[n]?) ∧
    (∀ fs : List ParserFactory, (fs.map ParserFactory.name).Nodup →
      registerAll [] fs = some fs.reverse) := by
  refine ⟨?_, ?_, ?_, ?_⟩
  · intro ps f h
    have hnof : ¬ ps.any (fun g => decide (g.name = f.name)) = true := by
      simp only [List.any_eq_true, decide_eq_true_iff, not_exists]
      intro g
      simp only [not_and]
      exact h g
    simp [raptor_parser_register_factory, hnof]
  · intro ps f
    exact ⟨rfl, rfl⟩
  · intro ps n
    exact raptor_syntaxes_enumerate_eq_getElem ps n
  · intro fs hnodup
    have := registerAll_reverse fs [] hnodup (by intro f _ h hh; cases hh)
    simpa using this

/-- Witness for C10 on a two-factory registry. -/
theorem registry_reverse_order_witness :
    raptor_parser_register_factory
        [⟨"a", "la", none, none, none, none⟩] ⟨"b", "lb", none, none, none, none⟩ =
      some [⟨"b", "lb", none, none, none, none⟩, ⟨"a", "la", none, none, none, none⟩] ∧
    raptor_syntaxes_enumerate
        [⟨"b", "lb", none, none, none, none⟩, ⟨"a", "la", none, none, none, none⟩] 0 =
      some ⟨"b", "lb", none, none, none, none⟩ ∧
    raptor_get_parser_factory
        [⟨"b", "lb", none, none, none, none⟩, ⟨"a", "la", none, none, none, none⟩] none =
      some ⟨"b", "lb", none, none, none, none⟩ ∧
    registerAll []
        [⟨"a", "la", none, none, none, none⟩, ⟨"b", "lb", none, none, none, none⟩] =
      some [⟨"b", "lb", none, none, none, none⟩, ⟨"a", "la", none, none, none, none⟩] :=
  ⟨registry_reverse_order.1 _ _ (by decide),
   (registry_reverse_order.2.1 _ _).1,
   (registry_reverse_order.2.1 _ _).2,
   registry_reverse_order.2.2.2 _ (by decide)⟩

/-- Helper: when some factory matches exactly by MIME or URI, the scan
returns the first such factory in list order, for any accumulated
scores. -/
theorem guessScan_exact (mime uri : Option String) (ps : List ParserFactory) :
    ∀ scores : List (Int × ParserFactory),
      (ps.find? (fun f => mimeExactMatch mime f || uriExactMatch uri f)).isSome →
      guessScan mime uri ps scores =
        (ps.find? (fun f => mimeExactMatch mime f || uriExactMatch uri f)).map
          (fun f => f.name) := by
  induction ps with
  | nil => intro scores h; simp [List.find?] at h
  | cons f rest ih =>
    intro scores h
    by_cases hm : mimeExactMatch mime f = true
    · simp [guessScan, List.find?, hm]
    · by_cases hu : uriExactMatch uri f = true
      · simp [guessScan, List.find?, hm, hu]
      · simp only [List.find?, hm, hu, Bool.false_or, Bool.or_false] at h ⊢
        simp only [guessScan]
        rw [if_neg hm, if_neg hu]
        exact ih _ h

/-- Helper: when no factory matches exactly, the scan accumulates every
clamped score and decides from the best. -/
theorem guessScan_noExact (mime uri : Option String) (ps : List ParserFactory) :
    ∀ scores : List (Int × ParserFactory),
      (∀ f ∈ ps, mimeExactMatch mime f = false ∧ uriExactMatch uri f = false) →
      guessScan mime uri ps scores =
        (pickTopScore (scores ++ scoredList ps)).map (fun f => f.name) := by
  induction ps with
  | nil => intro scores h; simp [guessScan, scoredList]
  | cons f rest ih =>
    intro scores h
    have hf := h f (List.mem_cons_self f rest)
    simp only [guessScan]
    rw [if_neg (by simp [hf.1]), if_neg (by simp [hf.2])]
    rw [ih (scores ++ [(recordedScore f, f)])
        (fun g hg => h g (List.mem_cons_of_mem f hg))]
    simp [scoredList, List.append_assoc]

/-- Helper: an empty maximum only comes from an empty score list. -/
theorem maxScoreOf_eq_none (scores : List (Int × ParserFactory)) :
    maxScoreOf scores = none → scores = [] := by
  cases scores with
  | nil => intro _; rfl
  | cons sf rest =>
    simp only [maxScoreOf]
    cases maxScoreOf rest <;> simp

/-- Helper: the maximum of the recorded scores is attained and bounds every
recorded score. -/
theorem maxScoreOf_spec (scores : List (Int × ParserFactory)) :
    ∀ m, maxScoreOf scores = some m →
      (∃ sf ∈ scores, sf.1 = m) ∧ (∀ sf ∈ scores, sf.1 ≤ m) := by
  induction scores with
  | nil => intro m h; simp [maxScoreOf] at h
  | cons sf rest ih =>
    intro m h
    obtain ⟨s, f⟩ := sf
    simp only [maxScoreOf] at h
    cases hr : maxScoreOf rest with
    | none =>
      rw [hr] at h
      injection h with h
      subst h
      have hnil := maxScoreOf_eq_none rest hr
      subst hnil
      refine ⟨⟨(s, f), List.mem_cons_self _ _, rfl⟩, ?_⟩
      intro tg htg
      rcases List.mem_cons.mp htg with rfl | htg2
      · exact le_refl _
      · cases htg2
    | some m2 =>
      rw [hr] at h
      injection h with h
      subst h
      obtain ⟨⟨sg, hgmem, hge⟩, hbound⟩ := ih m2 hr
      constructor
      · rcases le_total s m2 with hle | hle
        · exact ⟨sg, List.mem_cons_of_mem _ hgmem, by rw [hge]; exact (max_eq_right hle).symm⟩
        · exact ⟨(s, f), List.mem_cons_self _ _, (max_eq_left hle).symm⟩
      · intro tg htg
        rcases List.mem_cons.mp htg with rfl | htg2
        · exact le_max_left _ _
        · exact le_trans (hbound tg htg2) (le_max_right _ _)

/-- Helper: with a non-negative maximum, pickTopScore returns a factory in
the list attaining the maximum. -/
theorem pickTopScore_spec (scores : List (Int × ParserFactory)) (m : Int)
    (h : maxScoreOf scores = some m) (hm : 0 ≤ m) :
    ∃ sf ∈ scores, sf.1 = m ∧ pickTopScore scores = some sf.2 := by
  unfold pickTopScore
  rw [h]
  dsimp only
  rw [if_pos hm]
  obtain ⟨⟨sf, hmem, hsf⟩, _⟩ := maxScoreOf_spec scores m h
  cases hfind : scores.find? (fun sf => decide (sf.1 = m)) with
  | none =>
    exfalso
    have := List.find?_eq_none.mp hfind sf hmem
    simp [hsf] at this
  | some g =>
    have hg1 : g.1 = m := by
      have := List.find?_some hfind
      simpa using this
    exact ⟨g, List.mem_of_find?_eq_some hfind, hg1, rfl⟩

/-- C6 counterexample: factory A declares only a URI, factory B (later in
the list) declares the requested MIME type; the claim as stated returns the
name of the first MIME-matching factory, B, but the code scans per factory
and A's URI match fires first, so "A" is returned. -/
theorem guess_parser_name_counterexample :
    raptor_guess_parser_name
        [⟨"A", "la", none, some "U", none, none⟩,
         ⟨"B", "lb", some "M", none, none, none⟩]
        (some "U") (some "M") = some "A" ∧
    List.find? (fun f => mimeExactMatch (some "M") f)
        [⟨"A", "la", none, some "U", none, none⟩,
         ⟨"B", "lb", some "M", none, none, none⟩] =
      some ⟨"B", "lb", some "M", none, none, none⟩ ∧
    ("A" : String) ≠ "B" := by decide

/-- C6 amended: scanning factories in registry order, the first factory
whose declared MIME type exactly equals the given MIME type or whose
declared URI exactly equals the given URI is returned at once (the MIME
test runs before the URI test within each factory, but an earlier factory
wins over a later one regardless of which test fires); when no factory
matches exactly, every factory is scored through recognise-syntax with the
recorded score clamped to at most 10, and the name of a factory attaining
the maximal recorded score is returned when that score is non-negative,
nothing otherwise. -/
theorem guess_parser_name_amended (ps : List ParserFactory)
    (uri mime : Option String) :
    ((ps.find? (fun f => mimeExactMatch mime f || uriExactMatch uri f)).isSome →
      raptor_guess_parser_name ps uri mime =
        (ps.find? (fun f => mimeExactMatch mime f || uriExactMatch uri f)).map
          (fun f => f.name)) ∧
    ((∀ f ∈ ps, mimeExactMatch mime f = false ∧ uriExactMatch uri f = false) →
      (maxScoreOf (scoredList ps) = none →
        raptor_guess_parser_name ps uri mime = none) ∧
      (∀ m, maxScoreOf (scoredList ps) = some m → m < 0 →
        raptor_guess_parser_name ps uri mime = none) ∧
      (∀ m, maxScoreOf (scoredList ps) = some m → 0 ≤ m →
        ∃ f ∈ ps, raptor_guess_parser_name ps uri mime = some f.name ∧
          recordedScore f = m ∧ ∀ g ∈ ps, recordedScore g ≤ m)) ∧
    (∀ f : ParserFactory, recordedScore f ≤ 10) := by
  refine ⟨?_, ?_, ?_⟩
  · intro h
    exact guessScan_exact mime uri ps [] h
  · intro h
    have hbase : raptor_guess_parser_name ps uri mime =
        (pickTopScore (scoredList ps)).map (fun f => f.name) := by
      have := guessScan_noExact mime uri ps [] h
      simpa [raptor_guess_parser_name] using this
    refine ⟨?_, ?_, ?_⟩
    · intro hnone
      rw [hbase]
      unfold pickTopScore
      rw [hnone]
      rfl
    · intro m hsome hneg
      rw [hbase]
      unfold pickTopScore
      rw [hsome]
      dsimp only
      rw [if_neg (not_le.mpr hneg)]
      rfl
    · intro m hsome hpos
      obtain ⟨sf, hmem, hsf1, hpick⟩ := pickTopScore_spec (scoredList ps) m hsome hpos
      obtain ⟨f, hfmem, hfe⟩ := List.mem_map.mp (by simpa [scoredList] using hmem)
      refine ⟨f, hfmem, ?_, ?_, ?_⟩
      · rw [hbase, hpick, ← hfe]
        rfl
      · rw [← hfe] at hsf1
        exact hsf1
      · intro g hg
        have hmem2 : (recordedScore g, g) ∈ scoredList ps :=
          List.mem_map_of_mem (fun f => (recordedScore f, f)) hg
        have := (maxScoreOf_spec (scoredList ps) m hsome).2 (recordedScore g, g) hmem2
        simpa using this
  · intro f
    unfold recordedScore clampScore
    split_ifs with h
    · exact le_of_lt h
    · exact le_refl _

/-- Witness for C6 amended: a registry with one MIME-matching factory, a
registry with an unrecognised factory (score -1), and a registry with a
factory scoring 50, clamped to 10. -/
theorem guess_parser_name_amended_witness :
    raptor_guess_parser_name [⟨"B", "lb", some "M", none, none, none⟩]
        none (some "M") =
      (List.find?
        (fun f => mimeExactMatch (some "M") f || uriExactMatch none f)
        [⟨"B", "lb", some "M", none, none, none⟩]).map (fun f => f.name) ∧
    raptor_guess_parser_name [⟨"A", "la", none, none, none, none⟩] none none =
      none ∧
    (∃ f ∈ [⟨"C", "lc", none, none, none, some 50⟩],
      raptor_guess_parser_name [(⟨"C", "lc", none, none, none, some 50⟩ : ParserFactory)]
          none none = some f.name ∧
      recordedScore f = 10 ∧
      ∀ g ∈ [(⟨"C", "lc", none, none, none, some 50⟩ : ParserFactory)],
        recordedScore g ≤ 10) ∧
    recordedScore ⟨"C", "lc", none, none, none, some 50⟩ ≤ 10 :=
  ⟨(guess_parser_name_amended [⟨"B", "lb", some "M", none, none, none⟩]
      none (some "M")).1 (by decide),
   ((guess_parser_name_amended [⟨"A", "la", none, none, none, none⟩]
      none none).2.1 (by decide)).2.1 (-1) (by decide) (by decide),
   ((guess_parser_name_amended [⟨"C", "lc", none, none, none, some 50⟩]
      none none).2.1 (by decide)).2.2 10 (by decide) (by decide),
   (guess_parser_name_amended [] none none).2.2
      ⟨"C", "lc", none, none, none, some 50⟩⟩

/-- Helper: the match loop of the relay filter agrees with the indexed
description, given the invariant the code maintains for the running
predicate URI: it is namespaceTransformation on entry at index 0 and
profileTransformation from index 2 on (at index 1 the loop itself switches
it). -/
theorem relayMatchLoop_eq_spec (st : RStatement) (ps : List (Option String)) :
    ∀ (i : Nat) (predUri : String),
      (i = 0 → predUri = dataViewNamespaceTransformationUri) →
      (2 ≤ i → predUri = dataViewProfileTransformationUri) →
      relayMatchLoop st i predUri ps = relayMatchesSpec st i ps := by
  induction ps with
  | nil => intro i predUri _ _; rfl
  | cons p rest ih =>
    intro i predUri h0 h2
    have hpred : (if i = 1 then dataViewProfileTransformationUri else predUri) =
        (if i = 0 then dataViewNamespaceTransformationUri
         else dataViewProfileTransformationUri) := by
      rcases Nat.lt_or_ge i 2 with hlt | hge
      · interval_cases i
        · simp [h0 rfl]
        · simp
      · have he := h2 hge
        have h1 : ¬ i = 1 := by omega
        have hz : ¬ i = 0 := by omega
        simp [h1, hz, he]
    have hrec := ih (i + 1)
      (if i = 0 then dataViewNamespaceTransformationUri
       else dataViewProfileTransformationUri)
      (fun e => absurd e (Nat.succ_ne_zero i))
      (by
        intro hge
        have hz : ¬ i = 0 := by omega
        simp [hz])
    cases p with
    | none =>
      simp only [relayMatchLoop, relayMatchesSpec, hpred]
      exact hrec
    | some pu =>
      simp only [relayMatchLoop, relayMatchesSpec, hpred]
      set sp := (if i = 0 then dataViewNamespaceTransformationUri
                 else dataViewProfileTransformationUri) with hsp
      split_ifs with hcond
      · rw [hrec]
        rfl
      · rw [hrec]
        rfl

/-- C4: on a triple whose subject, predicate and object are all resources,
the relay filter pushes exactly the object URIs of the matches described by
the claim: profile entry 0 (the root namespace, skipped when null) is
tested against data-view#namespaceTransformation, every entry at index at
least 1 against data-view#profileTransformation, and each match pushes the
object URI onto the back of the transform queue. -/
theorem relay_profile_indexing (profiles : List (Option String)) (st : RStatement)
    (hs : st.subjectType = RaptorIdentifierType.resource)
    (hp : st.predicateType = RaptorIdentifierType.resource)
    (ho : st.objectType = RaptorIdentifierType.resource) :
    raptor_grddl_relay_pushes profiles st = relayMatchesSpec st 0 profiles := by
  unfold raptor_grddl_relay_pushes
  rw [if_pos ⟨hs, hp, ho⟩]
  exact relayMatchLoop_eq_spec st profiles 0 dataViewNamespaceTransformationUri
    (fun _ => rfl) (fun h => absurd h (by omega))

/-- Witness for C4: the root namespace in profile slot 0, a null slot, and
one head-profile URI; the statement asserts a namespaceTransformation for
the root namespace, so its object is pushed. -/
theorem relay_profile_indexing_witness :
    raptor_grddl_relay_pushes
        [some "http://ns/", none, some "http://p1/"]
        ⟨"http://ns/", RaptorIdentifierType.resource,
         "http://www.w3.org/2003/g/data-view#namespaceTransformation",
         RaptorIdentifierType.resource,
         "http://ex/t.xsl", RaptorIdentifierType.resource⟩ =
      relayMatchesSpec
        ⟨"http://ns/", RaptorIdentifierType.resource,
         "http://www.w3.org/2003/g/data-view#namespaceTransformation",
         RaptorIdentifierType.resource,
         "http://ex/t.xsl", RaptorIdentifierType.resource⟩ 0
        [some "http://ns/", none, some "http://p1/"] ∧
    relayMatchesSpec
        ⟨"http://ns/", RaptorIdentifierType.resource,
         "http://www.w3.org/2003/g/data-view#namespaceTransformation",
         RaptorIdentifierType.resource,
         "http://ex/t.xsl", RaptorIdentifierType.resource⟩ 0
        [some "http://ns/", none, some "http://p1/"] = ["http://ex/t.xsl"] :=
  ⟨relay_profile_indexing _ _ rfl rfl rfl, by decide⟩

/-- C5: with a saved user statement handler installed, every delivered
triple is forwarded unchanged to it with the saved user data, in delivery
order, whatever the profile list and transform queue are and whether or not
any triple matched a relay rule. -/
theorem relay_transparency {α : Type} (ud : α) (profiles : List (Option String))
    (queue : List String) (sts : List RStatement) :
    (relayAll ud true profiles queue [] sts).2 = sts.map (fun st => (ud, st)) := by
  have gen : ∀ (sts2 : List RStatement) (q : List String) (out : List (α × RStatement)),
      (relayAll ud true profiles q out sts2).2 = out ++ sts2.map (fun st => (ud, st)) := by
    intro sts2
    induction sts2 with
    | nil => intro q out; simp [relayAll]
    | cons st rest ih =>
      intro q out
      simp only [relayAll, raptor_grddl_relay_triples]
      rw [ih]
      simp
  simpa using gen sts queue []

/-- C2 evaluation at the failing input: with both the value-list and the
profile flag set and an identity resolution (the token is already the
absolute data-view URI), the token whose URI equals
http://www.w3.org/2003/g/data-view is kept, because the comparison string
in the code carries a trailing apostrophe; only a URI equal to that
apostrophe string would be dropped. -/
theorem value_list_keeps_data_view_uri :
    grddlValueListUris (fun cs => String.mk cs)
        (MATCH_IS_VALUE_LIST ||| MATCH_IS_PROFILE) dataViewUri.toList =
      [dataViewUri] ∧
    grddlValueListUris (fun cs => String.mk cs)
        (MATCH_IS_VALUE_LIST ||| MATCH_IS_PROFILE) dataViewUriTypo.toList = [] ∧
    dataViewUri ≠ dataViewUriTypo := by decide

/-- C1 evaluation at the failing input: with two queued transforms that
both succeed and enqueue nothing, the drain loop applies only the first and
leaves the second in the queue, because the counter i is compared with the
shrinking queue size while each iteration unshifts the front; with four
queued transforms only the first two are applied.  The fuel values are
irrelevant once the loop guard exits (identical results at fuel 10 and
100). -/
theorem drain_loop_skips_every_other_transform :
    drainLoop noopTransform 10 0 ["t1", "t2"] [] = (["t2"], ["t1"]) ∧
    drainLoop noopTransform 100 0 ["t1", "t2"] [] = (["t2"], ["t1"]) ∧
    drainLoop noopTransform 10 0 ["t1", "t2", "t3", "t4"] [] =
      (["t3", "t4"], ["t1", "t2"]) := by decide

/-- Helper: the seen test is membership in the visited list. -/
theorem seen_uri_iff_mem (visited : List String) (u : String) :
    raptor_grddl_seen_uri visited u = true ↔ u ∈ visited := by
  simp [raptor_grddl_seen_uri, List.any_eq_true]

/-- Helper: one level of processing only ever adds to the visited list,
provided the deeper level does. -/
theorem runRecursiveListFuelAux_mono (web : List (String × List String))
    (deeper : List String → List String → List String)
    (hdeeper : ∀ (v us : List String) (x : String), x ∈ v → x ∈ deeper v us) :
    ∀ (us visited : List String) (x : String),
      x ∈ visited → x ∈ runRecursiveListFuelAux web deeper visited us := by
  intro us
  induction us with
  | nil => intro visited x hx; exact hx
  | cons u rest ihu =>
    intro visited x hx
    simp only [runRecursiveListFuelAux]
    apply ihu
    split_ifs with h
    · exact hx
    · cases hw : webLookup web u with
      | none => exact hx
      | some uris =>
        apply hdeeper
        unfold raptor_grddl_done_uri
        rw [if_neg h]
        exact List.mem_append_left _ hx

/-- Helper: recursive processing only ever adds to the visited list. -/
theorem runRecursiveListFuel_mono (web : List (String × List String)) :
    ∀ (fuel : Nat) (us visited : List String) (x : String),
      x ∈ visited → x ∈ runRecursiveListFuel web fuel visited us := by
  intro fuel
  induction fuel with
  | zero => intro us visited x hx; exact hx
  | succ f ihf =>
    intro us visited x hx
    exact runRecursiveListFuelAux_mono web _
      (fun v us2 x2 hx2 => ihf us2 v x2 hx2) us visited x hx

/-- Helper: filtering with a pointwise stronger removal keeps fewer
elements. -/
theorem filter_not_length_le (l : List String) (p q : String → Bool)
    (hpq : ∀ x, p x = true → q x = true) :
    (l.filter (fun x => !(q x))).length ≤ (l.filter (fun x => !(p x))).length := by
  apply List.Sublist.length_le
  apply List.monotone_filter_right
  intro a ha
  by_contra hc
  have hpa : p a = true := by revert hc; cases p a <;> simp
  have hqa := hpq a hpa
  rw [hqa] at ha
  exact absurd ha (by decide)

/-- Helper: the strict version, when some listed element is newly
removed. -/
theorem filter_not_length_lt (l : List String) (p q : String → Bool)
    (hpq : ∀ x, p x = true → q x = true) (u : String) (hu : u ∈ l)
    (hp : p u = false) (hq : q u = true) :
    (l.filter (fun x => !(q x))).length < (l.filter (fun x => !(p x))).length := by
  induction l with
  | nil => cases hu
  | cons a l ih =>
    rcases List.mem_cons.mp hu with rfl | hu2
    · rw [List.filter_cons_of_neg (by simp [hq]),
          List.filter_cons_of_pos (by simp [hp])]
      exact Nat.lt_succ_of_le (filter_not_length_le l p q hpq)
    · by_cases hqa : q a = true
      · by_cases hpa : p a = true
        · rw [List.filter_cons_of_neg (by simp [hqa]),
              List.filter_cons_of_neg (by simp [hpa])]
          exact ih hu2
        · have hpa2 : p a = false := by revert hpa; cases p a <;> simp
          rw [List.filter_cons_of_neg (by simp [hqa]),
              List.filter_cons_of_pos (by simp [hpa2])]
          exact Nat.lt_succ_of_lt (ih hu2)
      · have hqa2 : q a = false := by revert hqa; cases q a <;> simp
        have hpa2 : p a = false := by
          by_contra hc
          have hpa3 : p a = true := by revert hc; cases p a <;> simp
          rw [hpq a hpa3] at hqa2
          cases hqa2
        rw [List.filter_cons_of_pos (by simp [hqa2]),
            List.filter_cons_of_pos (by simp [hpa2])]
        simp only [List.length_cons]
        exact Nat.succ_lt_succ (ih hu2)

/-- Helper: growing the visited list cannot increase the number of
unvisited web documents. -/
theorem unvisitedCount_le (web : List (String × List String))
    (v1 v2 : List String) (hsub : ∀ x, x ∈ v1 → x ∈ v2) :
    unvisitedCount web v2 ≤ unvisitedCount web v1 := by
  unfold unvisitedCount
  apply filter_not_length_le
  intro k hk
  rw [seen_uri_iff_mem] at hk ⊢
  exact hsub k hk

/-- Helper: visiting a web document strictly shrinks the measure. -/
theorem unvisitedCount_lt (web : List (String × List String))
    (v : List String) (u : String) (hu : u ∈ web.map Prod.fst)
    (hseen : raptor_grddl_seen_uri v u = false) :
    unvisitedCount web (v ++ [u]) < unvisitedCount web v := by
  have hpq : ∀ x, raptor_grddl_seen_uri v x = true →
      raptor_grddl_seen_uri (v ++ [u]) x = true := by
    intro x hx
    rw [seen_uri_iff_mem] at hx ⊢
    exact List.mem_append_left _ hx
  have hqu : raptor_grddl_seen_uri (v ++ [u]) u = true := by
    rw [seen_uri_iff_mem]
    exact List.mem_append_right _ (List.mem_singleton.mpr rfl)
  unfold unvisitedCount
  exact filter_not_length_lt (web.map Prod.fst)
    (fun k => raptor_grddl_seen_uri v k)
    (fun k => raptor_grddl_seen_uri (v ++ [u]) k)
    hpq u hu hseen hqu

/-- Helper: a successful fetch means the URI is a web document key. -/
theorem webLookup_mem_keys (web : List (String × List String)) (u : String)
    (l : List String) (h : webLookup web u = some l) : u ∈ web.map Prod.fst := by
  unfold webLookup at h
  cases hf : web.find? (fun e => decide (e.1 = u)) with
  | none => rw [hf] at h; cases h
  | some e =>
    have he : e.1 = u := by
      have := List.find?_some hf
      simpa using this
    exact he ▸ List.mem_map_of_mem Prod.fst (List.mem_of_find?_eq_some hf)

/-- Helper: an unvisited web document key makes the measure positive. -/
theorem unvisitedCount_pos (web : List (String × List String))
    (v : List String) (u : String) (hu : u ∈ web.map Prod.fst)
    (hseen : raptor_grddl_seen_uri v u = false) : 0 < unvisitedCount web v := by
  unfold unvisitedCount
  apply List.length_pos.mpr
  intro hnil
  have hmem : u ∈ (web.map Prod.fst).filter (fun k => !(raptor_grddl_seen_uri v k)) :=
    List.mem_filter.mpr ⟨hu, by simp [hseen]⟩
  rw [hnil] at hmem
  cases hmem

/-- Helper: once the fuel exceeds the number of unvisited web documents,
the result of recursive processing no longer depends on the fuel; this is
the termination argument, the fuel standing for the recursion depth. -/
theorem runRecursiveListFuel_zero_measure (web : List (String × List String)) :
    ∀ (f : Nat) (us v : List String), unvisitedCount web v = 0 →
      runRecursiveListFuel web f v us = v := by
  intro f
  cases f with
  | zero => intro us v _; rfl
  | succ g =>
    intro us
    induction us with
    | nil => intro v _; rfl
    | cons u rest ihu =>
      intro v hv
      simp only [runRecursiveListFuel, runRecursiveListFuelAux]
      split_ifs with hseen
      · exact ihu v hv
      · cases hw : webLookup web u with
        | none => exact ihu v hv
        | some uris =>
          exfalso
          have hseen2 : raptor_grddl_seen_uri v u = false := by simpa using hseen
          have hk := webLookup_mem_keys web u uris hw
          have := unvisitedCount_pos web v u hk hseen2
          omega

theorem runRecursiveListFuel_stable (web : List (String × List String)) :
    ∀ (n : Nat) (us v : List String) (f₁ f₂ : Nat),
      unvisitedCount web v ≤ n → n ≤ f₁ → n ≤ f₂ →
      runRecursiveListFuel web f₁ v us = runRecursiveListFuel web f₂ v us := by
  intro n
  induction n with
  | zero =>
    intro us v f₁ f₂ hb _ _
    have h0 : unvisitedCount web v = 0 := Nat.le_zero.mp hb
    rw [runRecursiveListFuel_zero_measure web f₁ us v h0,
        runRecursiveListFuel_zero_measure web f₂ us v h0]
  | succ n ihn =>
    intro us
    induction us with
    | nil =>
      intro v f₁ f₂ _ _ _
      cases f₁ <;> cases f₂ <;> rfl
    | cons u rest ihu =>
      intro v f₁ f₂ hb h1 h2
      obtain ⟨g₁, rfl⟩ : ∃ g, f₁ = g + 1 := ⟨f₁ - 1, by omega⟩
      obtain ⟨g₂, rfl⟩ : ∃ g, f₂ = g + 1 := ⟨f₂ - 1, by omega⟩
      simp only [runRecursiveListFuel, runRecursiveListFuelAux]
      split_ifs with hseen
      · exact ihu v (g₁ + 1) (g₂ + 1) hb h1 h2
      · cases hw : webLookup web u with
        | none => exact ihu v (g₁ + 1) (g₂ + 1) hb h1 h2
        | some uris =>
          have hseen2 : raptor_grddl_seen_uri v u = false := by simpa using hseen
          have hk := webLookup_mem_keys web u uris hw
          have hdone : raptor_grddl_done_uri v u = v ++ [u] := by
            unfold raptor_grddl_done_uri
            rw [if_neg hseen]
          have hlt : unvisitedCount web (v ++ [u]) < unvisitedCount web v :=
            unvisitedCount_lt web v u hk hseen2
          have hinner : runRecursiveListFuel web g₁ (raptor_grddl_done_uri v u) uris =
              runRecursiveListFuel web g₂ (raptor_grddl_done_uri v u) uris := by
            rw [hdone]
            exact ihn uris (v ++ [u]) g₁ g₂ (by omega) (by omega) (by omega)
          show runRecursiveListFuelAux web (runRecursiveListFuel web g₁)
              (runRecursiveListFuel web g₁ (raptor_grddl_done_uri v u) uris) rest =
            runRecursiveListFuelAux web (runRecursiveListFuel web g₂)
              (runRecursiveListFuel web g₂ (raptor_grddl_done_uri v u) uris) rest
          rw [hinner]
          have hsub : ∀ x, x ∈ v →
              x ∈ runRecursiveListFuel web g₂ (raptor_grddl_done_uri v u) uris := by
            intro x hx
            apply runRecursiveListFuel_mono
            unfold raptor_grddl_done_uri
            rw [if_neg hseen]
            exact List.mem_append_left _ hx
          have hb2 : unvisitedCount web
              (runRecursiveListFuel web g₂ (raptor_grddl_done_uri v u) uris) ≤ n + 1 :=
            le_trans (unvisitedCount_le web v _ hsub) hb
          exact ihu _ (g₁ + 1) (g₂ + 1) hb2 h1 h2

/-- C3: recursive GRDDL processing of a URI already in the shared visited
set returns 0 and leaves the set unchanged; done_uri pushes only a URI not
yet present (write-once); on a successful fetch the engine records its base
URI in the set before processing its own discoveries; and the whole
recursion stabilises as soon as the available depth exceeds the number of
unvisited web documents, so it terminates for any input. -/
theorem grddl_recursion_gated_and_terminates (web : List (String × List String))
    (v : List String) (u : String) (fuel f₁ f₂ : Nat) :
    (raptor_grddl_seen_uri v u = true →
      raptor_grddl_run_recursive web fuel v u = (0, v)) ∧
    (raptor_grddl_seen_uri v u = true → raptor_grddl_done_uri v u = v) ∧
    (raptor_grddl_seen_uri v u = false → raptor_grddl_done_uri v u = v ++ [u]) ∧
    (raptor_grddl_seen_uri v u = false → ∀ uris, webLookup web u = some uris →
      raptor_grddl_run_recursive web fuel v u =
        (0, runRecursiveListFuel web fuel (v ++ [u]) uris)) ∧
    (unvisitedCount web v ≤ f₁ → unvisitedCount web v ≤ f₂ →
      raptor_grddl_run_recursive web f₁ v u = raptor_grddl_run_recursive web f₂ v u) := by
  refine ⟨?_, ?_, ?_, ?_, ?_⟩
  · intro h
    unfold raptor_grddl_run_recursive
    rw [if_pos h]
  · intro h
    unfold raptor_grddl_done_uri
    rw [if_pos h]
  · intro h
    unfold raptor_grddl_done_uri
    rw [if_neg (by simp [h])]
  · intro h uris hw
    unfold raptor_grddl_run_recursive
    rw [if_neg (by simp [h]), hw]
    dsimp only
    have hdone : raptor_grddl_done_uri v u = v ++ [u] := by
      unfold raptor_grddl_done_uri
      rw [if_neg (by simp [h])]
    rw [hdone]
  · intro hb1 hb2
    unfold raptor_grddl_run_recursive
    split_ifs with hseen
    · rfl
    · cases hw : webLookup web u with
      | none => rfl
      | some uris =>
        have hseen2 : raptor_grddl_seen_uri v u = false := by simpa using hseen
        have hk := webLookup_mem_keys web u uris hw
        have hdone : raptor_grddl_done_uri v u = v ++ [u] := by
          unfold raptor_grddl_done_uri
          rw [if_neg hseen]
        have hlt := unvisitedCount_lt web v u hk hseen2
        rw [hdone]
        exact congrArg (Prod.mk 0)
          (runRecursiveListFuel_stable web (unvisitedCount web (v ++ [u]))
            uris (v ++ [u]) f₁ f₂ (le_refl _) (by omega) (by omega))

/-- Witness for C3 on the concrete two-document web in which a references b
and itself, and b references a back: processing from an empty visited set
visits both and stabilises at any fuel above the measure 2; processing a
URI already visited is a no-op returning 0. -/
theorem grddl_recursion_witness :
    raptor_grddl_run_recursive [("a", ["b", "a"]), ("b", ["a"])] 5 ["a"] "a" =
      (0, ["a"]) ∧
    raptor_grddl_done_uri ["a"] "a" = ["a"] ∧
    raptor_grddl_done_uri [] "a" = [] ++ ["a"] ∧
    raptor_grddl_run_recursive [("a", ["b", "a"]), ("b", ["a"])] 5 [] "a" =
      (0, runRecursiveListFuel [("a", ["b", "a"]), ("b", ["a"])] 5
            ([] ++ ["a"]) ["b", "a"]) ∧
    raptor_grddl_run_recursive [("a", ["b", "a"]), ("b", ["a"])] 3 [] "a" =
      raptor_grddl_run_recursive [("a", ["b", "a"]), ("b", ["a"])] 7 [] "a" :=
  ⟨(grddl_recursion_gated_and_terminates [("a", ["b", "a"]), ("b", ["a"])]
      ["a"] "a" 5 3 7).1 (by decide),
   (grddl_recursion_gated_and_terminates [("a", ["b", "a"]), ("b", ["a"])]
      ["a"] "a" 5 3 7).2.1 (by decide),
   (grddl_recursion_gated_and_terminates [("a", ["b", "a"]), ("b", ["a"])]
      [] "a" 5 3 7).2.2.1 (by decide),
   (grddl_recursion_gated_and_terminates [("a", ["b", "a"]), ("b", ["a"])]
      [] "a" 5 3 7).2.2.2.1 (by decide) ["b", "a"] (by decide),
   (grddl_recursion_gated_and_terminates [("a", ["b", "a"]), ("b", ["a"])]
      [] "a" 5 3 7).2.2.2.2 (by decide) (by decide)⟩

end RaptorSpec
